import Mathlib

/-!
Verification of the JiraCap data pipeline: normalization of raw tracker
records, multi-source merge into a snapshot, source removal, and the derived
metrics (utilization, burnout risk, profitability quadrants).

The definitions below are a shallow embedding of the TypeScript sources:
`src/services/jiraService.ts` (normalizers and raw-record parsing),
`src/App.tsx` (snapshot merge/removal handlers), `src/constants.ts`
(bootstrap defaults), `src/components/JiraConnect.tsx` (manual import
validation) and the dashboard metric computations (burnout data, sprint
points, capacity forecast, profitability quadrants).

JavaScript numbers are modelled as rationals (ℚ); all the arithmetic the
claims touch (sums of story points, divisions by capacity, halving of
maxima) is exact in JS doubles for the ranges involved, and the guards in
the code (`capacity > 0 ? ... : 0`) are carried over literally.  A thrown
exception is modelled as `Except.error`; JS `Map` is modelled as an
association list with insert-or-overwrite-in-place semantics.
-/

/-- Character-list prefix test (Boolean, by structural recursion). -/
def isPre : List Char → List Char → Bool
  | [], _ => true
  | _ :: _, [] => false
  | a :: as, b :: bs => a == b && isPre as bs

/-- Model of JavaScript `String.prototype.toLowerCase` restricted to the
ASCII alphabet (all the literals the normalizers compare against are
ASCII). Works on character lists so that it evaluates in the kernel. -/
def lowerChars (s : String) : List Char := s.toList.map Char.toLower

/-- Model of JavaScript `String.prototype.includes`: `needle` occurs as a
contiguous substring of `hay`. -/
def jsIncludes (hay needle : List Char) : Bool :=
  (List.range (hay.length + 1)).any (fun i => isPre needle (hay.drop i))

/-- JavaScript `Math.round`: round half-up. -/
def jsRound (x : ℚ) : ℤ := ⌊x + 1 / 2⌋

/-- JavaScript `name.split(' ')[0]`: the prefix of the string before the
first space. -/
def firstWord (s : String) : String :=
  String.mk (s.toList.takeWhile (fun c => c != ' '))

/-- Issue type enum from `types.ts` (constructors as used across src/). -/
inductive IssueType where
  | STORY | BUG | TASK | EPIC
deriving DecidableEq

/-- Priority enum from `types.ts`. -/
inductive Priority where
  | HIGHEST | HIGH | MEDIUM | LOW
deriving DecidableEq

/-- Status enum from `types.ts`. -/
inductive Status where
  | TO_DO | IN_PROGRESS | IN_REVIEW | DONE
deriving DecidableEq

/-- Canonical team member (`types.ts` / `constants.ts`). -/
structure TeamMember where
  id : String
  name : String
  role : String
  avatar : String
  capacityPerSprint : ℚ
  skills : List String
deriving DecidableEq

/-- Canonical sprint. `projectKey` is the provenance tag added on import
(absent on bootstrap data). -/
structure Sprint where
  id : String
  name : String
  startDate : String
  endDate : String
  state : String
  projectKey : Option String := none
deriving DecidableEq

/-- Canonical issue. Optional fields model `undefined` in the TypeScript
shape; `projectKey` is the provenance tag added on import. -/
structure JiraIssue where
  id : String
  key : String
  summary : Option String := none
  type : IssueType := IssueType.STORY
  priority : Priority := Priority.MEDIUM
  status : Status := Status.TO_DO
  assigneeId : Option String := none
  storyPoints : ℚ := 0
  sprintId : Option String := none
  projectKey : Option String := none
  timeSpentSeconds : Option ℚ := none
  timeEstimateSeconds : Option ℚ := none
  parentKey : Option String := none
  parentSummary : Option String := none
deriving DecidableEq

/-- `mapIssueType` from `src/services/jiraService.ts` lines 4-10. -/
def mapIssueType (type : String) : IssueType :=
  let lower := lowerChars type
  if jsIncludes lower (("bug").toList) then IssueType.BUG
  else if jsIncludes lower (("task").toList) then IssueType.TASK
  else if jsIncludes lower (("epic").toList) then IssueType.EPIC
  else IssueType.STORY

/-- `mapPriority` from `src/services/jiraService.ts` lines 13-19. -/
def mapPriority (priority : String) : Priority :=
  let lower := lowerChars priority
  if jsIncludes lower (("highest").toList) || jsIncludes lower (("blocker").toList) then
    Priority.HIGHEST
  else if jsIncludes lower (("high").toList) || jsIncludes lower (("critical").toList) then
    Priority.HIGH
  else if jsIncludes lower (("low").toList) || jsIncludes lower (("minor").toList) then
    Priority.LOW
  else Priority.MEDIUM

/-- First branch condition of `mapStatus` (`jiraService.ts` line 26):
`catLower === 'done' || lower.includes('done') || lower.includes('closed')`.
`catLower` is `statusCategory?.toLowerCase() || ''`. -/
def statusDoneCond (status : String) (statusCategory : Option String) : Bool :=
  let lower := lowerChars status
  let catLower := (statusCategory.map lowerChars).getD []
  catLower == ("done").toList || jsIncludes lower (("done").toList) ||
    jsIncludes lower (("closed").toList)

/-- Second branch condition of `mapStatus` (line 27):
`catLower === 'in progress' || lower.includes('progress')`. -/
def statusProgressCond (status : String) (statusCategory : Option String) : Bool :=
  let lower := lowerChars status
  let catLower := (statusCategory.map lowerChars).getD []
  catLower == ("in progress").toList || jsIncludes lower (("progress").toList)

/-- Third branch condition of `mapStatus` (line 28):
`lower.includes('review') || lower.includes('qa')`. -/
def statusReviewCond (status : String) : Bool :=
  let lower := lowerChars status
  jsIncludes lower (("review").toList) || jsIncludes lower (("qa").toList)

/-- `mapStatus` from `src/services/jiraService.ts` lines 22-30. -/
def mapStatus (status : String) (statusCategory : Option String) : Status :=
  if statusDoneCond status statusCategory then Status.DONE
  else if statusProgressCond status statusCategory then Status.IN_PROGRESS
  else if statusReviewCond status then Status.IN_REVIEW
  else Status.TO_DO

/-- The sub-object `i.fields` of a raw issue record, with every access
the parser performs modelled as optional (`undefined` ↦ `none`).
`storyPointsNum` is `some q` exactly when `customfield_10016` holds a
numeric value; any absent or non-numeric value normalizes to 0 via
`i.fields.customfield_10016 || 0` plus the `typeof` check. -/
structure RawIssueFields where
  summary : Option String := none
  issuetypeName : Option String := none
  priorityName : Option String := none
  statusName : Option String := none
  statusCategoryName : Option String := none
  assigneeAccountId : Option String := none
  assigneeDisplayName : Option String := none
  assigneeAvatar : Option String := none
  storyPointsNum : Option ℚ := none
deriving DecidableEq

/-- A raw issue record. `fields := none` models a record whose `fields`
object is missing entirely: every access `i.fields.x` then throws. -/
structure RawIssue where
  id : String
  key : String
  fields : Option RawIssueFields := none
deriving DecidableEq

/-- The JSON blob fed to `parseIssuesFromRaw`: either a wrapper object with
an `issues` array (`data.issues`), a bare array, or anything else (in which
case `data.issues || data` is not an array and the parser returns `[]`). -/
inductive RawPayload where
  | wrapped (issues : List RawIssue)
  | arr (issues : List RawIssue)
  | other
deriving DecidableEq

/-- JavaScript truthiness on an optional string: the empty string is falsy
(used by `i.fields.assignee?.accountId || null`). -/
def truthyStr : Option String → Option String
  | some a => if a = "" then none else some a
  | none => none

/-- Error message of the TypeError thrown when a record has no `fields`
object (`i.fields.customfield_10016` on line 217 of `jiraService.ts`). -/
def fieldsErrorMsg : String := "TypeError: cannot read properties of undefined"

/-- Body of the `issues.map` arrow in `JiraService.parseIssuesFromRaw`
(`jiraService.ts` lines 216-229).  A record with a `fields` object is
always normalized (missing sub-fields take defaults via `?.` and `|| 0`);
a record without one throws. -/
def normalizeRawIssue (i : RawIssue) : Except String JiraIssue :=
  match i.fields with
  | none => Except.error fieldsErrorMsg
  | some f =>
    Except.ok
      { id := i.id
        key := i.key
        summary := f.summary
        type := mapIssueType (f.issuetypeName.getD (""))
        priority := mapPriority (f.priorityName.getD (""))
        status := mapStatus (f.statusName.getD ("")) f.statusCategoryName
        assigneeId := truthyStr f.assigneeAccountId
        storyPoints := f.storyPointsNum.getD 0
        sprintId := none }

/-- Sequential normalization of a list of raw records: the JS `.map`
throws out of the whole call as soon as one record throws. -/
def parseList : List RawIssue → Except String (List JiraIssue)
  | [] => Except.ok []
  | i :: rest =>
    match normalizeRawIssue i with
    | Except.error e => Except.error e
    | Except.ok x =>
      match parseList rest with
      | Except.error e => Except.error e
      | Except.ok xs => Except.ok (x :: xs)

/-- `JiraService.parseIssuesFromRaw` (`jiraService.ts` lines 212-230):
`data.issues || data`, return `[]` when that is not an array, else map
each record through the normalizer. -/
def parseIssuesFromRaw : RawPayload → Except String (List JiraIssue)
  | RawPayload.other => Except.ok []
  | RawPayload.wrapped issues => parseList issues
  | RawPayload.arr issues => parseList issues

/-- JavaScript `Map.prototype.set` on an association list: overwrite in
place if the key is present (keys are unique by construction), else append. -/
def mapSet : List (String × TeamMember) → String → TeamMember → List (String × TeamMember)
  | [], k, v => [(k, v)]
  | p :: rest, k, v => if p.1 = k then (k, v) :: rest else p :: mapSet rest k v

/-- Iterated `Map.set` keyed by member id (the `forEach` loops in
`App.tsx` and `JiraConnect.tsx`). -/
def setAll (acc : List (String × TeamMember)) (ms : List TeamMember) :
    List (String × TeamMember) :=
  ms.foldl (fun acc m => mapSet acc m.id m) acc

/-- Team merge from `App.tsx` lines 122-125: seed a `Map` with the existing
members keyed by id, overwrite/insert each fetched member, read the values
back in insertion order. -/
def mergeTeam (existing incoming : List TeamMember) : List TeamMember :=
  (setAll (setAll [] existing) incoming).map Prod.snd

/-- The snapshot held by `App.tsx`: team, issues, sprints and the list of
connected source tags (`projects`). -/
structure Snapshot where
  team : List TeamMember
  issues : List JiraIssue
  sprints : List Sprint
  projects : List String
deriving DecidableEq

/-- `INITIAL_TEAM` from `src/constants.ts`. -/
def INITIAL_TEAM : List TeamMember :=
  [ { id := "u1", name := "Alice Chen", role := "Senior Frontend Dev",
      avatar := "https://picsum.photos/32/32?random=1", capacityPerSprint := 20,
      skills := ["React", "TypeScript", "CSS"] },
    { id := "u2", name := "Bob Smith", role := "Backend Engineer",
      avatar := "https://picsum.photos/32/32?random=2", capacityPerSprint := 18,
      skills := ["Node.js", "PostgreSQL", "Redis"] },
    { id := "u3", name := "Charlie Kim", role := "DevOps Engineer",
      avatar := "https://picsum.photos/32/32?random=3", capacityPerSprint := 15,
      skills := ["AWS", "Terraform", "CI/CD"] },
    { id := "u4", name := "Dana Scully", role := "Full Stack Dev",
      avatar := "https://picsum.photos/32/32?random=4", capacityPerSprint := 25,
      skills := ["React", "Python", "Go"] } ]

/-- `INITIAL_SPRINTS` from `src/constants.ts`. -/
def INITIAL_SPRINTS : List Sprint :=
  [ { id := "s1", name := "Sprint 24", startDate := "2023-10-01",
      endDate := "2023-10-14", state := "active" },
    { id := "s2", name := "Sprint 25", startDate := "2023-10-15",
      endDate := "2023-10-28", state := "future" },
    { id := "s3", name := "Sprint 26", startDate := "2023-10-29",
      endDate := "2023-11-11", state := "future" } ]

/-- `MOCK_ISSUES` from `src/constants.ts`. -/
def MOCK_ISSUES : List JiraIssue :=
  [ { id := "i1", key := "PROJ-101", summary := some ("Implement Authentication Flow"),
      type := IssueType.STORY, priority := Priority.HIGH, status := Status.IN_PROGRESS,
      assigneeId := some ("u1"), storyPoints := 8, sprintId := some ("s1") },
    { id := "i2", key := "PROJ-102", summary := some ("Database Schema Migration"),
      type := IssueType.TASK, priority := Priority.HIGHEST, status := Status.TO_DO,
      assigneeId := some ("u2"), storyPoints := 5, sprintId := some ("s1") },
    { id := "i3", key := "PROJ-103", summary := some ("Fix memory leak in worker"),
      type := IssueType.BUG, priority := Priority.HIGH, status := Status.TO_DO,
      assigneeId := some ("u2"), storyPoints := 3, sprintId := some ("s1") },
    { id := "i4", key := "PROJ-104", summary := some ("Setup Kubernetes Cluster"),
      type := IssueType.TASK, priority := Priority.MEDIUM, status := Status.IN_PROGRESS,
      assigneeId := some ("u3"), storyPoints := 13, sprintId := some ("s1") },
    { id := "i5", key := "PROJ-105", summary := some ("Dashboard UI Revamp"),
      type := IssueType.STORY, priority := Priority.MEDIUM, status := Status.TO_DO,
      assigneeId := none, storyPoints := 13, sprintId := some ("s2") },
    { id := "i6", key := "PROJ-106", summary := some ("API Rate Limiting"),
      type := IssueType.STORY, priority := Priority.HIGH, status := Status.TO_DO,
      assigneeId := none, storyPoints := 8, sprintId := some ("s2") } ]

/-- The pure merge performed by `handleJiraConnect` (`App.tsx` lines
89-141) once the fetches have returned: duplicate-source guard, provenance
tagging, replace-defaults-on-first-import, team merge, additive append.
Returns the next snapshot and the boolean success flag. -/
def handleJiraConnect (s : Snapshot) (projectKey : String)
    (fetchedTeam : List TeamMember) (fetchedIssues : List JiraIssue)
    (fetchedSprints : List Sprint) : Snapshot × Bool :=
  if s.projects.contains projectKey then (s, false)
  else
    let taggedIssues := fetchedIssues.map (fun i => { i with projectKey := some projectKey })
    let taggedSprints := fetchedSprints.map (fun sp => { sp with projectKey := some projectKey })
    let mergedProjects := s.projects ++ [projectKey]
    let isFirstProject := s.projects.isEmpty
    let baseTeam := if isFirstProject then [] else s.team
    let baseIssues := if isFirstProject then [] else s.issues
    let baseSprints := if isFirstProject then [] else s.sprints
    ({ team := mergeTeam baseTeam fetchedTeam
       issues := baseIssues ++ taggedIssues
       sprints := baseSprints ++ taggedSprints
       projects := mergedProjects }, true)

/-- The source tag generated by `handleManualImport` (`App.tsx` line 151):
`"MANUAL-IMPORT-" + (projects.length + 1)`. -/
def manualKey (s : Snapshot) : String :=
  "MANUAL-IMPORT-" ++ toString (s.projects.length + 1)

/-- `handleManualImport` (`App.tsx` lines 150-178): same merge as the API
path but with a generated tag and no duplicate-source guard. -/
def handleManualImport (s : Snapshot) (team : List TeamMember)
    (issues : List JiraIssue) (sprints : List Sprint) : Snapshot :=
  let key := manualKey s
  let taggedIssues := issues.map (fun i => { i with projectKey := some key })
  let taggedSprints := sprints.map (fun sp => { sp with projectKey := some key })
  let isFirstProject := s.projects.isEmpty
  let baseTeam := if isFirstProject then [] else s.team
  let baseIssues := if isFirstProject then [] else s.issues
  let baseSprints := if isFirstProject then [] else s.sprints
  { team := mergeTeam baseTeam team
    issues := baseIssues ++ taggedIssues
    sprints := baseSprints ++ taggedSprints
    projects := s.projects ++ [key] }

/-- `handleRemoveProject` (`App.tsx` lines 180-204): filter issues and
sprints by tag, keep the team, and reset everything to the bootstrap
defaults when the last source is removed. -/
def handleRemoveProject (s : Snapshot) (projectKeyToRemove : String) : Snapshot :=
  let nextProjects := s.projects.filter (fun p => p != projectKeyToRemove)
  let nextIssues := s.issues.filter (fun i => i.projectKey != some projectKeyToRemove)
  let nextSprints := s.sprints.filter (fun sp => sp.projectKey != some projectKeyToRemove)
  if nextProjects.isEmpty then
    { team := INITIAL_TEAM, issues := MOCK_ISSUES, sprints := INITIAL_SPRINTS,
      projects := nextProjects }
  else
    { team := s.team, issues := nextIssues, sprints := nextSprints,
      projects := nextProjects }

/-- Error message for a blob that is neither an `issues` wrapper nor an
array (`JiraConnect.tsx` line 48). -/
def invalidJsonMsg : String := "Invalid JSON format. Expected Jira API response."

/-- Error message for a batch that parses to zero issues
(`JiraConnect.tsx` line 51). -/
def noIssuesMsg : String := "No issues found in the JSON."

/-- The placeholder sprint created by the manual import
(`JiraConnect.tsx` lines 76-81); its dates come from the clock and are
modelled symbolically. -/
def manualSprint : Sprint :=
  { id := "manual-1", name := "Current Sprint", startDate := "now",
    endDate := "now+14d", state := "active" }

/-- Team extraction from the pasted issues (`JiraConnect.tsx` lines 56-75):
unique assignees collected into a `Map` keyed by account id.  It runs only
after `parseIssuesFromRaw` succeeded, so every record then has a `fields`
object; a record without one is ignored here. -/
def extractAssignees (issues : List RawIssue) : List TeamMember :=
  (issues.foldl
    (fun acc i =>
      match i.fields with
      | none => acc
      | some f =>
        match truthyStr f.assigneeAccountId with
        | none => acc
        | some aId =>
          mapSet acc aId
            { id := aId, name := f.assigneeDisplayName.getD (""), role := "Developer",
              avatar := f.assigneeAvatar.getD (""), capacityPerSprint := 10, skills := [] })
    []).map Prod.snd

/-- The normalized batch handed to `onManualImport`. -/
structure ImportPayload where
  team : List TeamMember
  issues : List JiraIssue
  sprints : List Sprint
deriving DecidableEq

/-- `handleManualSubmit` (`JiraConnect.tsx` lines 43-92): validate the
blob shape, parse the issues (any throw is caught and surfaced as the
user-facing error), reject an empty parse with `noIssuesMsg`, otherwise
build the import payload.  `Except.error` means no import happens. -/
def handleManualSubmit (data : RawPayload) : Except String ImportPayload :=
  match data with
  | RawPayload.other => Except.error invalidJsonMsg
  | RawPayload.wrapped issues =>
    match parseIssuesFromRaw (RawPayload.wrapped issues) with
    | Except.error e => Except.error e
    | Except.ok parsedIssues =>
      if parsedIssues.length = 0 then Except.error noIssuesMsg
      else
        Except.ok
          { team := extractAssignees issues, issues := parsedIssues,
            sprints := [manualSprint] }
  | RawPayload.arr issues =>
    match parseIssuesFromRaw (RawPayload.arr issues) with
    | Except.error e => Except.error e
    | Except.ok parsedIssues =>
      if parsedIssues.length = 0 then Except.error noIssuesMsg
      else
        Except.ok { team := [], issues := parsedIssues, sprints := [manualSprint] }

/-- `activeAssignedPoints` of one member (`Dashboard` part, lines 41-45):
story points of the member's non-Done issues. -/
def activeAssignedPoints (issues : List JiraIssue) (m : TeamMember) : ℚ :=
  ((issues.filter (fun i => i.assigneeId == some m.id && i.status != Status.DONE)).map
    (fun i => i.storyPoints)).sum

/-- `completedPoints` of one member (`Dashboard` part, lines 51-56):
Done issues of the member, restricted to the active sprint when one exists. -/
def completedPointsFor (issues : List JiraIssue) (activeSprint : Option Sprint)
    (m : TeamMember) : ℚ :=
  ((issues.filter (fun i =>
    i.assigneeId == some m.id && i.status == Status.DONE &&
      (match activeSprint with
       | some sp => i.sprintId == some sp.id
       | none => true))).map (fun i => i.storyPoints)).sum

/-- `rawUtilization` (`Dashboard` part, line 61):
`capacity > 0 ? activeAssignedPoints / capacity * 100 : 0`. -/
def rawUtilization (issues : List JiraIssue) (m : TeamMember) : ℚ :=
  if m.capacityPerSprint > 0 then
    activeAssignedPoints issues m / m.capacityPerSprint * 100
  else 0

/-- One row of `burnoutData` (`Dashboard` part, lines 69-78). -/
structure BurnoutDatum where
  name : String
  fullName : String
  utilization : ℤ
  rawUtilization : ℤ
  realization : ℤ
  assigned : ℚ
  capacity : ℚ
  isRisk : Bool
deriving DecidableEq

/-- Body of the `team.map` arrow building `burnoutData`
(`Dashboard` part, lines 37-79). -/
def memberBurnout (issues : List JiraIssue) (activeSprint : Option Sprint)
    (m : TeamMember) : BurnoutDatum :=
  let activeAssigned := activeAssignedPoints issues m
  let completed := completedPointsFor issues activeSprint m
  let capacity := m.capacityPerSprint
  let rawU := if capacity > 0 then activeAssigned / capacity * 100 else 0
  let utilization := min rawU 120
  let totalScope := activeAssigned + completed
  let realization := if totalScope > 0 then completed / totalScope * 100 else 0
  { name := firstWord m.name
    fullName := m.name
    utilization := jsRound utilization
    rawUtilization := jsRound rawU
    realization := jsRound realization
    assigned := activeAssigned
    capacity := capacity
    isRisk := decide (rawU > 85) }

/-- `activeSprintPoints` from the dashboard `stats` (lines 29-31): story
points of issues in the active sprint, 0 when there is none. -/
def activeSprintPointsCalc (issues : List JiraIssue) (activeSprint : Option Sprint) : ℚ :=
  match activeSprint with
  | some sp => ((issues.filter (fun i => i.sprintId == some sp.id)).map
      (fun i => i.storyPoints)).sum
  | none => 0

/-- `sprintLoad` of one sprint in `forecastData` (lines 93-95). -/
def sprintLoad (issues : List JiraIssue) (sp : Sprint) : ℚ :=
  ((issues.filter (fun i => i.sprintId == some sp.id)).map (fun i => i.storyPoints)).sum

/-- One profitability group (`ClientData` in the profitability part). -/
structure ClientData where
  id : String
  name : String
  hoursSpent : ℚ
  revenue : ℚ
  profitabilityIndex : ℚ
deriving DecidableEq

/-- `maxHours` (profitability part, line 487):
`Math.max(...clientData.map(d => d.hoursSpent), 10)`. -/
def maxHoursOf (clientData : List ClientData) : ℚ :=
  (clientData.map (fun d => d.hoursSpent)).foldr max 10

/-- `maxRevenue` (line 488): `Math.max(...clientData.map(d => d.revenue), 1000)`. -/
def maxRevenueOf (clientData : List ClientData) : ℚ :=
  (clientData.map (fun d => d.revenue)).foldr max 1000

/-- `avgHours` (line 491): half of `maxHours`. -/
def avgHoursOf (clientData : List ClientData) : ℚ := maxHoursOf clientData / 2

/-- `avgRevenue` (line 492): half of `maxRevenue`. -/
def avgRevenueOf (clientData : List ClientData) : ℚ := maxRevenueOf clientData / 2

/-- The four quadrant labels returned by `getQuadrant`. -/
inductive Quadrant where
  | cashCow | strategicPartner | standard | drain
deriving DecidableEq

/-- `getQuadrant` (profitability part, lines 494-499). -/
def getQuadrant (clientData : List ClientData) (hours rev : ℚ) : Quadrant :=
  let avgHours := avgHoursOf clientData
  let avgRevenue := avgRevenueOf clientData
  if rev > avgRevenue ∧ hours < avgHours then Quadrant.cashCow
  else if rev > avgRevenue ∧ hours ≥ avgHours then Quadrant.strategicPartner
  else if rev ≤ avgRevenue ∧ hours < avgHours then Quadrant.standard
  else Quadrant.drain

/-- Modelled from the spec: the maximum `hoursSpent` actually observed in
the dataset, with no floor constant (the spec's words "maximum observed
hoursSpent across groups"). -/
def observedMaxHours (clientData : List ClientData) : ℚ :=
  (clientData.map (fun d => d.hoursSpent)).foldr max 0

/-- Modelled from the spec: the maximum `revenue` actually observed. -/
def observedMaxRevenue (clientData : List ClientData) : ℚ :=
  (clientData.map (fun d => d.revenue)).foldr max 0

/-- Modelled from the spec: quadrant classification against midpoints of
the observed maxima ("half of max observed hours/revenue", no other
constants), with the same comparison shape as the code. -/
def specQuadrant (clientData : List ClientData) (hours rev : ℚ) : Quadrant :=
  let midHours := observedMaxHours clientData / 2
  let midRevenue := observedMaxRevenue clientData / 2
  if rev > midRevenue ∧ hours < midHours then Quadrant.cashCow
  else if rev > midRevenue ∧ hours ≥ midHours then Quadrant.strategicPartner
  else if rev ≤ midRevenue ∧ hours < midHours then Quadrant.standard
  else Quadrant.drain

/-! Concrete data for counterexamples and witnesses. -/

/-- A raw record with a complete `fields` object. -/
def goodRaw : RawIssue :=
  { id := "10001", key := "AB-1",
    fields := some
      { summary := some ("Implement login"), issuetypeName := some ("Story"),
        priorityName := some ("High"), statusName := some ("In Progress"),
        statusCategoryName := some ("In Progress"),
        assigneeAccountId := some ("acc-1"), assigneeDisplayName := some ("Alice"),
        storyPointsNum := some 5 } }

/-- A raw record whose `fields` object is missing entirely. -/
def badRaw : RawIssue := { id := "10002", key := "AB-2" }

/-- A snapshot whose only source tag is the one the next manual import
will generate (reachable: import two manual sources, remove the first). -/
def collisionSnap : Snapshot :=
  { team := [], issues := [], sprints := [], projects := ["MANUAL-IMPORT-2"] }

/-- A minimal issue used by witnesses and counterexamples. -/
def wIssue : JiraIssue := { id := "x1", key := "X-1", storyPoints := 1 }

/-- A member named Alice with id u1 (existing side of the team merge). -/
def aliceM : TeamMember :=
  { id := "u1", name := "Alice", role := "Developer", avatar := "",
    capacityPerSprint := 10, skills := [] }

/-- The same id re-supplied with the name Alicia (incoming side). -/
def aliciaM : TeamMember :=
  { id := "u1", name := "Alicia", role := "Developer", avatar := "",
    capacityPerSprint := 10, skills := [] }

/-- A member with capacity 20 for the utilization witnesses. -/
def capMember : TeamMember :=
  { id := "m1", name := "Eve Stone", role := "Developer", avatar := "",
    capacityPerSprint := 20, skills := [] }

/-- A member with zero capacity for the zero-division witness. -/
def zeroCapMember : TeamMember :=
  { id := "m0", name := "Zed", role := "Developer", avatar := "",
    capacityPerSprint := 0, skills := [] }

/-- 18 active points assigned to `capMember` (90% of capacity 20). -/
def capIssues : List JiraIssue :=
  [ { id := "c1", key := "C-1", assigneeId := some ("m1"), storyPoints := 18 } ]

/-- 5 active points assigned to the zero-capacity member. -/
def zeroCapIssues : List JiraIssue :=
  [ { id := "z1", key := "Z-1", assigneeId := some ("m0"), storyPoints := 5 } ]

/-- A single profitability group far below both floor constants. -/
def demoClients : List ClientData :=
  [ { id := "A", name := "A", hoursSpent := 2, revenue := 100, profitabilityIndex := 50 } ]

/-- A single profitability group above both floor constants. -/
def bigClients : List ClientData :=
  [ { id := "B", name := "B", hoursSpent := 40, revenue := 2000, profitabilityIndex := 50 } ]

/-- The empty bootstrap-state snapshot used by witnesses (no sources). -/
def emptySnap : Snapshot := { team := [], issues := [], sprints := [], projects := [] }

/-- A snapshot with exactly one connected source over the bootstrap data. -/
def singleSourceSnap : Snapshot :=
  { team := INITIAL_TEAM, issues := MOCK_ISSUES, sprints := INITIAL_SPRINTS,
    projects := ["A"] }

/-- The canonical issue `goodRaw` normalizes to. -/
def parsedGood : JiraIssue :=
  { id := "10001", key := "AB-1", summary := some ("Implement login"),
    type := IssueType.STORY, priority := Priority.HIGH, status := Status.IN_PROGRESS,
    assigneeId := some ("acc-1"), storyPoints := 5 }

example : parseIssuesFromRaw (RawPayload.arr [goodRaw]) = Except.ok [parsedGood] := by rfl

example : mapStatus ("Done") (some ("Done")) = Status.DONE := by decide

example : mapStatus ("CLOSED") none = Status.DONE := by decide

/-! ## Theorems -/

/-- Claim C3 (counterexample): a raw status whose text contains "done"
paired with the category "In Progress" is mapped to Done by the code,
not to InProgress as the category-takes-precedence claim requires. -/
theorem status_text_done_overrides_category :
    mapStatus ("Marked as done") (some ("In Progress")) = Status.DONE ∧
      Status.DONE ≠ Status.IN_PROGRESS := by
  constructor
  · decide
  · decide

/-- Claim C3 (amended): `mapStatus` checks category and raw text together
per tier.  Done wins if the category is "done" OR the text contains
"done"/"closed" — in particular a "done" text forces Done regardless of the
category; only then InProgress if the category is "in progress" or the text
contains "progress"; only then InReview on "review"/"qa"; else ToDo. -/
theorem mapStatus_tier_structure (status : String) (cat : Option String) :
    (statusDoneCond status cat = true → mapStatus status cat = Status.DONE) ∧
    (jsIncludes (lowerChars status) (("done").toList) = true →
      mapStatus status cat = Status.DONE) ∧
    (statusDoneCond status cat = false → statusProgressCond status cat = true →
      mapStatus status cat = Status.IN_PROGRESS) ∧
    (statusDoneCond status cat = false → statusProgressCond status cat = false →
      statusReviewCond status = true → mapStatus status cat = Status.IN_REVIEW) ∧
    (statusDoneCond status cat = false → statusProgressCond status cat = false →
      statusReviewCond status = false → mapStatus status cat = Status.TO_DO) := by
  refine ⟨?_, ?_, ?_, ?_, ?_⟩
  · intro h; simp [mapStatus, h]
  · intro h
    have hd : statusDoneCond status cat = true := by
      simp only [statusDoneCond, h, Bool.or_true, Bool.true_or]
    simp [mapStatus, hd]
  · intro h1 h2; simp [mapStatus, h1, h2]
  · intro h1 h2 h3; simp [mapStatus, h1, h2, h3]
  · intro h1 h2 h3; simp [mapStatus, h1, h2, h3]

/-- Witness for the amended C3 statement at concrete inputs. -/
theorem mapStatus_tier_structure_witness :
    mapStatus ("Marked as done") (some ("In Progress")) = Status.DONE ∧
      mapStatus ("Sprint work") (some ("In Progress")) = Status.IN_PROGRESS :=
  ⟨(mapStatus_tier_structure ("Marked as done") (some ("In Progress"))).2.1 (by decide),
   (mapStatus_tier_structure ("Sprint work") (some ("In Progress"))).2.2.1
     (by decide) (by decide)⟩

/-- Claim C8 (counterexample): with a single group at 2 hours / 100
revenue, the code's boundaries are 5 hours and 500 revenue — half of the
floored maxima `max(observed, 10)` and `max(observed, 1000)` — not half of
the observed maxima (1 and 50); the group is classified Standard by the
code but would be Strategic Partner against the observed-max midpoints. -/
theorem quadrant_floor_constants_refute :
    avgHoursOf demoClients = 5 ∧ observedMaxHours demoClients / 2 = 1 ∧
      avgRevenueOf demoClients = 500 ∧ observedMaxRevenue demoClients / 2 = 50 ∧
      getQuadrant demoClients 2 100 = Quadrant.standard ∧
      specQuadrant demoClients 2 100 = Quadrant.strategicPartner := by
  have h1 : avgHoursOf demoClients = 5 := by
    norm_num [avgHoursOf, maxHoursOf, demoClients, max_def]
  have h2 : observedMaxHours demoClients / 2 = 1 := by
    norm_num [observedMaxHours, demoClients, max_def]
  have h3 : avgRevenueOf demoClients = 500 := by
    norm_num [avgRevenueOf, maxRevenueOf, demoClients, max_def]
  have h4 : observedMaxRevenue demoClients / 2 = 50 := by
    norm_num [observedMaxRevenue, demoClients, max_def]
  refine ⟨h1, h2, h3, h4, ?_, ?_⟩
  · simp only [getQuadrant, h1, h3]
    norm_num
  · simp only [specQuadrant, h2, h4]
    norm_num

/-- Folding `max` over a list from a larger base equals taking `max` of
the base with the fold from a smaller base. -/
theorem foldr_max_from_base (l : List ℚ) (a b : ℚ) (h : a ≤ b) :
    l.foldr max b = max b (l.foldr max a) := by
  induction l with
  | nil => simp [max_eq_left h]
  | cons x t ih => simp only [List.foldr_cons, ih, max_left_comm]

/-- `getQuadrant` rewritten as nested decisions on the two boundary
comparisons. -/
theorem getQuadrant_eq (ds : List ClientData) (hours rev : ℚ) :
    getQuadrant ds hours rev =
      if avgRevenueOf ds < rev then
        (if hours < avgHoursOf ds then Quadrant.cashCow else Quadrant.strategicPartner)
      else
        (if hours < avgHoursOf ds then Quadrant.standard else Quadrant.drain) := by
  by_cases h1 : avgRevenueOf ds < rev <;> by_cases h2 : hours < avgHoursOf ds <;>
    simp [getQuadrant, h1, h2, not_lt.mp, GT.gt]

/-- Claim C8 (amended): the quadrant boundaries are half of
`max(observed max, floor)` with floors 10 hours and 1000 revenue — so they
equal half the observed maxima exactly when those maxima reach the floors —
and classification compares `(hours, revenue)` against the two boundaries:
Cash Cow = high revenue/low hours, Strategic Partner = high revenue/high
hours, Standard = low revenue/low hours, Drain = low revenue/high hours. -/
theorem quadrant_thresholds (ds : List ClientData) (hours rev : ℚ) :
    (10 ≤ observedMaxHours ds → avgHoursOf ds = observedMaxHours ds / 2) ∧
    (1000 ≤ observedMaxRevenue ds → avgRevenueOf ds = observedMaxRevenue ds / 2) ∧
    (getQuadrant ds hours rev = Quadrant.cashCow ↔
      avgRevenueOf ds < rev ∧ hours < avgHoursOf ds) ∧
    (getQuadrant ds hours rev = Quadrant.strategicPartner ↔
      avgRevenueOf ds < rev ∧ avgHoursOf ds ≤ hours) ∧
    (getQuadrant ds hours rev = Quadrant.standard ↔
      rev ≤ avgRevenueOf ds ∧ hours < avgHoursOf ds) ∧
    (getQuadrant ds hours rev = Quadrant.drain ↔
      rev ≤ avgRevenueOf ds ∧ avgHoursOf ds ≤ hours) := by
  refine ⟨?_, ?_, ?_, ?_, ?_, ?_⟩
  · intro h
    unfold avgHoursOf maxHoursOf
    rw [foldr_max_from_base _ 0 10 (by norm_num)]
    unfold observedMaxHours at h ⊢
    rw [max_eq_right h]
  · intro h
    unfold avgRevenueOf maxRevenueOf
    rw [foldr_max_from_base _ 0 1000 (by norm_num)]
    unfold observedMaxRevenue at h ⊢
    rw [max_eq_right h]
  all_goals
    rw [getQuadrant_eq]
    by_cases h1 : avgRevenueOf ds < rev <;> by_cases h2 : hours < avgHoursOf ds <;>
      simp [h1, h2, ← not_lt]

/-- Witness for the amended C8 statement on a dataset above both floors. -/
theorem quadrant_thresholds_witness :
    avgHoursOf bigClients = observedMaxHours bigClients / 2 ∧
      avgRevenueOf bigClients = observedMaxRevenue bigClients / 2 ∧
      getQuadrant bigClients 40 2000 = Quadrant.strategicPartner :=
  ⟨(quadrant_thresholds bigClients 40 2000).1
      (by norm_num [observedMaxHours, bigClients, max_def]),
   (quadrant_thresholds bigClients 40 2000).2.1
      (by norm_num [observedMaxRevenue, bigClients, max_def]),
   ((quadrant_thresholds bigClients 40 2000).2.2.2.1).mpr
      (by constructor <;>
        norm_num [avgRevenueOf, maxRevenueOf, avgHoursOf, maxHoursOf, bigClients, max_def])⟩

/-- Claim C1 (counterexample): a manual import whose generated tag
`MANUAL-IMPORT-2` already sits in the sources list (reachable by importing
two manual sources and removing the first) is not rejected: the snapshot
mutates and the duplicate tag is appended a second time. -/
theorem manual_import_duplicate_tag_merged :
    manualKey collisionSnap = "MANUAL-IMPORT-2" ∧
      collisionSnap.projects.contains ("MANUAL-IMPORT-2") = true ∧
      (handleManualImport collisionSnap [] [wIssue] []).projects
        = ["MANUAL-IMPORT-2", "MANUAL-IMPORT-2"] ∧
      (handleManualImport collisionSnap [] [wIssue] []).issues.length = 1 ∧
      handleManualImport collisionSnap [] [wIssue] [] ≠ collisionSnap := by
  have hproj : (handleManualImport collisionSnap [] [wIssue] []).projects
      = ["MANUAL-IMPORT-2", "MANUAL-IMPORT-2"] := by rfl
  refine ⟨by rfl, by rfl, hproj, by rfl, ?_⟩
  intro h
  have hp := congrArg Snapshot.projects h
  rw [hproj] at hp
  exact absurd hp (by decide)

/-- Claim C1 (amended): only the API connect path carries the
duplicate-source guard — a duplicate tag is rejected before any mutation
and the snapshot is returned unchanged with a failure flag — while the
manual import path unconditionally appends its generated
`MANUAL-IMPORT-(n+1)` tag with no duplicate check. -/
theorem duplicate_source_guard_api_only (s : Snapshot) (t : String)
    (tm tm2 : List TeamMember) (is is2 : List JiraIssue) (sp sp2 : List Sprint) :
    (s.projects.contains t = true → handleJiraConnect s t tm is sp = (s, false)) ∧
    (handleManualImport s tm2 is2 sp2).projects = s.projects ++ [manualKey s] := by
  constructor
  · intro h
    have hmem : t ∈ s.projects := by simpa using h
    simp [handleJiraConnect, hmem]
  · rfl

/-- Witness for the amended C1 statement: the API path rejects the
duplicate tag held by `collisionSnap` and leaves it untouched. -/
theorem duplicate_source_guard_api_only_witness :
    handleJiraConnect collisionSnap ("MANUAL-IMPORT-2") [] [] [] = (collisionSnap, false) :=
  (duplicate_source_guard_api_only collisionSnap ("MANUAL-IMPORT-2") [] [] [] [] [] []).1
    (by decide)

/-- Claim C6: for a member with positive capacity, raw utilization is
active assigned points over capacity times 100; the burnout flag is raised
exactly when the unclamped raw utilization strictly exceeds 85 (85 itself
is not at risk); the displayed utilization is the raw value clamped at 120
(then rounded for the chart) while the risk flag uses the unclamped value. -/
theorem member_utilization_risk (issues : List JiraIssue) (activeSprint : Option Sprint)
    (m : TeamMember) (h : 0 < m.capacityPerSprint) :
    rawUtilization issues m = activeAssignedPoints issues m / m.capacityPerSprint * 100 ∧
    ((memberBurnout issues activeSprint m).isRisk = true ↔ 85 < rawUtilization issues m) ∧
    (rawUtilization issues m = 85 → (memberBurnout issues activeSprint m).isRisk = false) ∧
    (memberBurnout issues activeSprint m).utilization
      = jsRound (min (rawUtilization issues m) 120) ∧
    (memberBurnout issues activeSprint m).rawUtilization
      = jsRound (rawUtilization issues m) := by
  have hru : rawUtilization issues m
      = activeAssignedPoints issues m / m.capacityPerSprint * 100 := by
    simp [rawUtilization, h]
  have hrisk : (memberBurnout issues activeSprint m).isRisk
      = decide (85 < rawUtilization issues m) := by
    simp [memberBurnout, rawUtilization]
  refine ⟨hru, ?_, ?_, ?_, ?_⟩
  · rw [hrisk]; simp
  · intro he
    rw [hrisk, he]
    simp
  · simp [memberBurnout, rawUtilization]
  · simp [memberBurnout, rawUtilization]

/-- Witness for C6: capacity 20 with 18 active assigned points gives raw
utilization 90 and raises the risk flag. -/
theorem member_utilization_risk_witness :
    rawUtilization capIssues capMember = 90 ∧
      (memberBurnout capIssues none capMember).isRisk = true := by
  have haap : activeAssignedPoints capIssues capMember = 18 := by
    simp [activeAssignedPoints, capIssues, capMember]
  have h := member_utilization_risk capIssues none capMember (by norm_num [capMember])
  have hr : rawUtilization capIssues capMember = 90 := by
    rw [h.1, haap]
    norm_num [capMember]
  exact ⟨hr, h.2.1.mpr (by rw [hr]; norm_num)⟩

/-- Claim C7: a member with zero capacity has raw utilization exactly 0
(the guard `capacity > 0 ? ... : 0` short-circuits the division), hence is
never flagged at risk and displays utilization 0 — the computation is
total for every snapshot. -/
theorem zero_capacity_utilization (issues : List JiraIssue) (activeSprint : Option Sprint)
    (m : TeamMember) (h : m.capacityPerSprint = 0) :
    rawUtilization issues m = 0 ∧
    (memberBurnout issues activeSprint m).isRisk = false ∧
    (memberBurnout issues activeSprint m).utilization = 0 ∧
    (memberBurnout issues activeSprint m).rawUtilization = 0 := by
  have h0 : ¬ (0 : ℚ) < m.capacityPerSprint := by rw [h]; exact lt_irrefl 0
  have hm : min (0 : ℚ) 120 = 0 := by norm_num
  refine ⟨?_, ?_, ?_, ?_⟩
  · simp [rawUtilization, h0]
  · norm_num [memberBurnout, h0]
  · norm_num [memberBurnout, h0, hm, jsRound]
  · norm_num [memberBurnout, h0, jsRound]

/-- Witness for C7: the zero-capacity member with 5 assigned points still
gets raw utilization 0 and no risk flag. -/
theorem zero_capacity_utilization_witness :
    activeAssignedPoints zeroCapIssues zeroCapMember = 5 ∧
      rawUtilization zeroCapIssues zeroCapMember = 0 ∧
      (memberBurnout zeroCapIssues none zeroCapMember).isRisk = false := by
  have h := zero_capacity_utilization zeroCapIssues none zeroCapMember (by rfl)
  refine ⟨?_, h.1, h.2.1⟩
  simp [activeAssignedPoints, zeroCapIssues, zeroCapMember]

/-- Claim C4: starting from a bootstrap-only snapshot (empty sources
list), importing source A replaces the defaults — issue and sprint counts
become exactly |A| — and importing a distinct source B afterwards appends,
giving |A| + |B| with no cross-source deduplication. -/
theorem import_two_sources_additive (s : Snapshot) (tA tB : String)
    (teamA : List TeamMember) (issuesA : List JiraIssue) (sprintsA : List Sprint)
    (teamB : List TeamMember) (issuesB : List JiraIssue) (sprintsB : List Sprint)
    (h0 : s.projects = []) (hne : tB ≠ tA) :
    (handleJiraConnect s tA teamA issuesA sprintsA).2 = true ∧
    (handleJiraConnect s tA teamA issuesA sprintsA).1.issues.length = issuesA.length ∧
    (handleJiraConnect (handleJiraConnect s tA teamA issuesA sprintsA).1
        tB teamB issuesB sprintsB).2 = true ∧
    (handleJiraConnect (handleJiraConnect s tA teamA issuesA sprintsA).1
        tB teamB issuesB sprintsB).1.issues.length
      = issuesA.length + issuesB.length ∧
    (handleJiraConnect (handleJiraConnect s tA teamA issuesA sprintsA).1
        tB teamB issuesB sprintsB).1.sprints.length
      = sprintsA.length + sprintsB.length := by
  have hA : (handleJiraConnect s tA teamA issuesA sprintsA)
      = ({ team := mergeTeam [] teamA
           issues := [] ++ issuesA.map (fun i => { i with projectKey := some tA })
           sprints := [] ++ sprintsA.map (fun sp => { sp with projectKey := some tA })
           projects := [tA] }, true) := by
    simp [handleJiraConnect, h0]
  rw [hA]
  refine ⟨rfl, by simp, ?_, ?_, ?_⟩ <;>
    simp [handleJiraConnect, hne]

/-- Witness for C4 at concrete sources of one issue each. -/
theorem import_two_sources_additive_witness :
    (handleJiraConnect (handleJiraConnect emptySnap ("A") [] [wIssue] []).1
        ("B") [] [wIssue] []).1.issues.length = 2 := by
  have h := import_two_sources_additive emptySnap ("A") ("B") [] [wIssue] [] [] [wIssue] []
    (by rfl) (by decide)
  simpa using h.2.2.2.1

/-- Claim C5: removing a source filters every issue and sprint carrying
its tag; when at least one source remains the team is untouched and only
the filters are applied; when the removed source was the last one the
snapshot becomes exactly the bootstrap defaults with an empty sources
list. -/
theorem remove_source_spec (s : Snapshot) (k : String) :
    (∀ i ∈ (handleRemoveProject s k).issues, i.projectKey ≠ some k) ∧
    (∀ sp ∈ (handleRemoveProject s k).sprints, sp.projectKey ≠ some k) ∧
    (s.projects.filter (fun p => p != k) ≠ [] →
      (handleRemoveProject s k).team = s.team ∧
      (handleRemoveProject s k).issues
        = s.issues.filter (fun i => i.projectKey != some k) ∧
      (handleRemoveProject s k).sprints
        = s.sprints.filter (fun sp => sp.projectKey != some k) ∧
      (handleRemoveProject s k).projects = s.projects.filter (fun p => p != k)) ∧
    (s.projects.filter (fun p => p != k) = [] →
      handleRemoveProject s k =
        { team := INITIAL_TEAM, issues := MOCK_ISSUES, sprints := INITIAL_SPRINTS,
          projects := [] }) := by
  by_cases he : s.projects.filter (fun p => p != k) = []
  · have hrw : handleRemoveProject s k
        = { team := INITIAL_TEAM, issues := MOCK_ISSUES, sprints := INITIAL_SPRINTS,
            projects := s.projects.filter (fun p => p != k) } := by
      simp [handleRemoveProject, he]
    rw [hrw, he]
    refine ⟨?_, ?_, ?_, ?_⟩
    · intro i hi
      simp only [MOCK_ISSUES, List.mem_cons, List.not_mem_nil, or_false] at hi
      rcases hi with h | h | h | h | h | h <;> simp [h]
    · intro sp hsp
      simp only [INITIAL_SPRINTS, List.mem_cons, List.not_mem_nil, or_false] at hsp
      rcases hsp with h | h | h <;> simp [h]
    · intro hne
      exact absurd rfl hne
    · intro _
      rfl
  · have hrw : handleRemoveProject s k
        = { team := s.team
            issues := s.issues.filter (fun i => i.projectKey != some k)
            sprints := s.sprints.filter (fun sp => sp.projectKey != some k)
            projects := s.projects.filter (fun p => p != k) } := by
      simp [handleRemoveProject, he]
    rw [hrw]
    refine ⟨?_, ?_, ?_, ?_⟩
    · intro i hi
      have := (List.mem_filter.mp hi).2
      simpa using this
    · intro sp hsp
      have := (List.mem_filter.mp hsp).2
      simpa using this
    · intro _
      exact ⟨rfl, rfl, rfl, rfl⟩
    · intro hc
      exact absurd hc he

/-- Witness for C5: removing the single source of `singleSourceSnap`
resets the snapshot to the bootstrap defaults. -/
theorem remove_source_spec_witness :
    handleRemoveProject singleSourceSnap ("A") =
      { team := INITIAL_TEAM, issues := MOCK_ISSUES, sprints := INITIAL_SPRINTS,
        projects := [] } :=
  (remove_source_spec singleSourceSnap ("A")).2.2.2 (by decide)

/-- A batch containing a record without a `fields` object always fails as
a whole: the throw escapes the `.map`. -/
theorem parseList_error_of_missing_fields (is : List RawIssue) (r : RawIssue)
    (hr : r ∈ is) (hf : r.fields = none) :
    ∃ e, parseList is = Except.error e := by
  induction is with
  | nil => cases hr
  | cons a t ih =>
    rcases List.mem_cons.mp hr with h | h
    · subst h
      refine ⟨fieldsErrorMsg, ?_⟩
      simp [parseList, normalizeRawIssue, hf]
    · cases hna : normalizeRawIssue a with
      | error e2 =>
        refine ⟨e2, ?_⟩
        simp [parseList, hna]
      | ok v =>
        obtain ⟨e, he⟩ := ih h
        refine ⟨e, ?_⟩
        simp [parseList, hna, he]

/-- Claim C2 (counterexample): the batch `[goodRaw, badRaw]` — one healthy
record and one missing its `fields` object — fails as a whole with the
thrown TypeError rather than skipping the malformed record, although the
healthy record alone parses fine. -/
theorem malformed_record_fails_batch :
    parseIssuesFromRaw (RawPayload.arr [goodRaw, badRaw]) = Except.error fieldsErrorMsg ∧
      parseIssuesFromRaw (RawPayload.arr [goodRaw]) = Except.ok [parsedGood] ∧
      badRaw.fields = none := by
  refine ⟨by rfl, by rfl, by rfl⟩

/-- Claim C2 (amended): a record that has a `fields` object is always
normalized (missing sub-fields default, never skipped), but a record
missing the whole `fields` object throws and fails the entire batch; in
the manual import the failure surfaces as one user-facing error with no
partial import, and a batch parsing to zero issues surfaces the
"No issues found" error, also with no import. -/
theorem parse_failure_policy :
    (∀ (is : List RawIssue) (r : RawIssue), r ∈ is → r.fields = none →
      (∃ e, parseIssuesFromRaw (RawPayload.wrapped is) = Except.error e) ∧
      (∃ e, parseIssuesFromRaw (RawPayload.arr is) = Except.error e)) ∧
    (∀ (r : RawIssue) (f : RawIssueFields), r.fields = some f →
      ∃ issue, normalizeRawIssue r = Except.ok issue) ∧
    (∀ d : RawPayload, d ≠ RawPayload.other → parseIssuesFromRaw d = Except.ok [] →
      handleManualSubmit d = Except.error noIssuesMsg) ∧
    (∀ (d : RawPayload) (e : String), parseIssuesFromRaw d = Except.error e →
      handleManualSubmit d = Except.error e) := by
  refine ⟨?_, ?_, ?_, ?_⟩
  · intro is r hr hf
    obtain ⟨e, he⟩ := parseList_error_of_missing_fields is r hr hf
    exact ⟨⟨e, he⟩, ⟨e, he⟩⟩
  · intro r f hf
    simp [normalizeRawIssue, hf]
  · intro d hd hok
    match d with
    | RawPayload.other => exact absurd rfl hd
    | RawPayload.wrapped is =>
      simp only [parseIssuesFromRaw] at hok
      simp [handleManualSubmit, parseIssuesFromRaw, hok]
    | RawPayload.arr is =>
      simp only [parseIssuesFromRaw] at hok
      simp [handleManualSubmit, parseIssuesFromRaw, hok]
  · intro d e he
    match d with
    | RawPayload.other => simp [parseIssuesFromRaw] at he
    | RawPayload.wrapped is =>
      simp only [parseIssuesFromRaw] at he
      simp [handleManualSubmit, parseIssuesFromRaw, he]
    | RawPayload.arr is =>
      simp only [parseIssuesFromRaw] at he
      simp [handleManualSubmit, parseIssuesFromRaw, he]

/-- Witness for the amended C2 statement at concrete batches. -/
theorem parse_failure_policy_witness :
    (∃ e, parseIssuesFromRaw (RawPayload.wrapped [goodRaw, badRaw]) = Except.error e) ∧
      handleManualSubmit (RawPayload.arr []) = Except.error noIssuesMsg ∧
      handleManualSubmit (RawPayload.wrapped [badRaw]) = Except.error fieldsErrorMsg :=
  ⟨((parse_failure_policy).1 [goodRaw, badRaw] badRaw (by simp) (by rfl)).1,
   (parse_failure_policy).2.2.1 (RawPayload.arr []) (by simp) (by rfl),
   (parse_failure_policy).2.2.2 (RawPayload.wrapped [badRaw]) fieldsErrorMsg (by rfl)⟩

/-- Every issue the normalizer produces has no sprint id. -/
theorem parseList_sprintId_none (is : List RawIssue) :
    ∀ xs, parseList is = Except.ok xs → ∀ i ∈ xs, i.sprintId = none := by
  induction is with
  | nil =>
    intro xs h
    simp [parseList] at h
    subst h
    intro i hi
    cases hi
  | cons a t ih =>
    intro xs h
    cases hna : normalizeRawIssue a with
    | error e =>
      rw [parseList] at h
      simp [hna] at h
    | ok v =>
      cases hpt : parseList t with
      | error e =>
        rw [parseList] at h
        simp [hna, hpt] at h
      | ok vs =>
        rw [parseList] at h
        simp [hna, hpt] at h
        subst h
        intro i hi
        rcases List.mem_cons.mp hi with h | h
        · subst h
          cases hfa : a.fields with
          | none => simp [normalizeRawIssue, hfa] at hna
          | some f =>
            simp [normalizeRawIssue, hfa] at hna
            rw [← hna]
        · exact ih vs hpt i h

/-- Claim C10: every issue coming out of `parseIssuesFromRaw` carries
`sprintId = undefined`, so appending a normalized import to any snapshot
never changes the active-sprint points (sprint health) nor any sprint's
workload in the capacity forecast. -/
theorem parsed_issues_never_in_sprints (d : RawPayload) (xs : List JiraIssue)
    (h : parseIssuesFromRaw d = Except.ok xs) :
    (∀ i ∈ xs, i.sprintId = none) ∧
    (∀ (sp : Sprint) (base : List JiraIssue),
      activeSprintPointsCalc (base ++ xs) (some sp) = activeSprintPointsCalc base (some sp) ∧
      sprintLoad (base ++ xs) sp = sprintLoad base sp) := by
  have hnone : ∀ i ∈ xs, i.sprintId = none := by
    match d with
    | RawPayload.other =>
      simp [parseIssuesFromRaw] at h
      subst h
      intro i hi
      cases hi
    | RawPayload.wrapped is =>
      exact parseList_sprintId_none is xs (by simpa [parseIssuesFromRaw] using h)
    | RawPayload.arr is =>
      exact parseList_sprintId_none is xs (by simpa [parseIssuesFromRaw] using h)
  have hfil : ∀ sp : Sprint, xs.filter (fun i => i.sprintId == some sp.id) = [] := by
    intro sp
    rw [List.filter_eq_nil_iff]
    intro i hi
    simp [hnone i hi]
  refine ⟨hnone, ?_⟩
  intro sp base
  constructor
  · simp [activeSprintPointsCalc, List.filter_append, hfil sp]
  · simp [sprintLoad, List.filter_append, hfil sp]

/-- Witness for C10: appending the parsed `goodRaw` issue to the mock
snapshot leaves the workload of a sprint unchanged. -/
theorem parsed_issues_never_in_sprints_witness :
    sprintLoad (MOCK_ISSUES ++ [parsedGood]) manualSprint = sprintLoad MOCK_ISSUES manualSprint :=
  ((parsed_issues_never_in_sprints (RawPayload.arr [goodRaw]) [parsedGood] (by rfl)).2
    manualSprint MOCK_ISSUES).2

/-- `mapSet` keeps the key sequence, appending the key only when absent. -/
theorem mapSet_keys (l : List (String × TeamMember)) (k : String) (v : TeamMember) :
    (mapSet l k v).map Prod.fst =
      if k ∈ l.map Prod.fst then l.map Prod.fst else l.map Prod.fst ++ [k] := by
  induction l with
  | nil => simp [mapSet]
  | cons p rest ih =>
    by_cases h : p.1 = k
    · simp [mapSet, h]
    · by_cases hm : k ∈ rest.map Prod.fst
      · simp [mapSet, h, ih, hm, Ne.symm h]
      · simp [mapSet, h, ih, hm, Ne.symm h]

/-- `mapSet` preserves distinctness of the keys. -/
theorem mapSet_nodup (l : List (String × TeamMember)) (k : String) (v : TeamMember)
    (hn : (l.map Prod.fst).Nodup) : ((mapSet l k v).map Prod.fst).Nodup := by
  rw [mapSet_keys]
  by_cases hm : k ∈ l.map Prod.fst
  · simpa [hm] using hn
  · simp [hm, List.nodup_append, hn]

/-- An absent key filters to nothing. -/
theorem filter_key_nil (l : List (String × TeamMember)) (k : String)
    (hk : k ∉ l.map Prod.fst) : l.filter (fun p => p.1 == k) = [] := by
  rw [List.filter_eq_nil_iff]
  intro p hp hbe
  exact hk (List.mem_map.mpr ⟨p, hp, by simpa using hbe⟩)

/-- After `mapSet l k v` (keys distinct), the key `k` holds exactly `v`. -/
theorem mapSet_filter_self (l : List (String × TeamMember)) (k : String) (v : TeamMember)
    (hn : (l.map Prod.fst).Nodup) :
    (mapSet l k v).filter (fun p => p.1 == k) = [(k, v)] := by
  induction l with
  | nil => simp [mapSet]
  | cons p rest ih =>
    rw [List.map_cons, List.nodup_cons] at hn
    by_cases h : p.1 = k
    · have hres : rest.filter (fun p => p.1 == k) = [] :=
        filter_key_nil rest k (by rw [← h]; exact hn.1)
      simp [mapSet, h, hres]
    · simp [mapSet, h, ih hn.2]

/-- `mapSet` with key `k` does not disturb the entries of any other key. -/
theorem mapSet_filter_other (l : List (String × TeamMember)) (k : String) (v : TeamMember)
    (u : String) (hu : u ≠ k) :
    (mapSet l k v).filter (fun p => p.1 == u) = l.filter (fun p => p.1 == u) := by
  induction l with
  | nil => simp [mapSet, Ne.symm hu]
  | cons p rest ih =>
    by_cases h : p.1 = k
    · simp [mapSet, h, Ne.symm hu]
    · by_cases hp : p.1 = u
      · simp [mapSet, h, hp, ih, hu]
      · simp [mapSet, h, hp, ih, hu]

/-- `mapSet` with a member keyed by its own id preserves the invariant
that every entry is keyed by its member's id. -/
theorem mapSet_inv (l : List (String × TeamMember)) (v : TeamMember)
    (hl : ∀ p ∈ l, p.1 = p.2.id) : ∀ q ∈ mapSet l v.id v, q.1 = q.2.id := by
  induction l with
  | nil =>
    intro q hq
    simp [mapSet] at hq
    simp [hq]
  | cons p rest ih =>
    intro q hq
    by_cases h : p.1 = v.id
    · simp only [mapSet, h, if_pos rfl] at hq
      rcases List.mem_cons.mp hq with hh | hh
      · simp [hh]
      · exact hl q (List.mem_cons_of_mem p hh)
    · simp only [mapSet, if_neg h] at hq
      rcases List.mem_cons.mp hq with hh | hh
      · subst hh
        exact hl q (List.mem_cons_self q rest)
      · exact ih (fun p hp => hl p (List.mem_cons_of_mem _ hp)) q hh

/-- Iterated insertion keeps the keys distinct. -/
theorem setAll_nodup (ms : List TeamMember) :
    ∀ acc : List (String × TeamMember), (acc.map Prod.fst).Nodup →
      ((setAll acc ms).map Prod.fst).Nodup := by
  induction ms with
  | nil => intro acc hn; exact hn
  | cons m rest ih =>
    intro acc hn
    exact ih (mapSet acc m.id m) (mapSet_nodup acc m.id m hn)

/-- Iterated insertion keeps every entry keyed by its member's id. -/
theorem setAll_inv (ms : List TeamMember) :
    ∀ acc : List (String × TeamMember), (∀ p ∈ acc, p.1 = p.2.id) →
      ∀ q ∈ setAll acc ms, q.1 = q.2.id := by
  induction ms with
  | nil => intro acc ha; exact ha
  | cons m rest ih =>
    intro acc ha
    exact ih (mapSet acc m.id m) (mapSet_inv acc m ha)

/-- If no incoming member carries id `u`, iterated insertion leaves the
entries of key `u` untouched. -/
theorem setAll_filter_none (ms : List TeamMember) :
    ∀ acc : List (String × TeamMember), ∀ u : String,
      ms.filter (fun m => m.id == u) = [] →
      (setAll acc ms).filter (fun p => p.1 == u) = acc.filter (fun p => p.1 == u) := by
  induction ms with
  | nil => intro acc u _; rfl
  | cons m rest ih =>
    intro acc u h
    by_cases hb : m.id = u
    · rw [List.filter_cons_of_pos (by simpa using hb)] at h
      exact absurd h (List.cons_ne_nil _ _)
    · rw [List.filter_cons_of_neg (by simpa using hb)] at h
      have hstep : setAll acc (m :: rest) = setAll (mapSet acc m.id m) rest := rfl
      rw [hstep, ih (mapSet acc m.id m) u h,
        mapSet_filter_other acc m.id m u (Ne.symm hb)]

/-- When some incoming member carries id `u`, after iterated insertion the
key `u` holds exactly the LAST incoming member with that id. -/
theorem setAll_filter_last (ms : List TeamMember) :
    ∀ acc : List (String × TeamMember), ∀ u : String,
      (acc.map Prod.fst).Nodup →
      ∀ h : ms.filter (fun m => m.id == u) ≠ [],
      (setAll acc ms).filter (fun p => p.1 == u)
        = [(u, (ms.filter (fun m => m.id == u)).getLast h)] := by
  induction ms with
  | nil =>
    intro acc u _ h
    exact absurd rfl h
  | cons m rest ih =>
    intro acc u hn h
    have hstep : setAll acc (m :: rest) = setAll (mapSet acc m.id m) rest := rfl
    by_cases hm : m.id = u
    · by_cases hr : rest.filter (fun x => x.id == u) = []
      · have hfil : (m :: rest).filter (fun x => x.id == u) = [m] := by
          rw [List.filter_cons_of_pos (by simpa using hm), hr]
        have hlast : ((m :: rest).filter (fun x => x.id == u)).getLast h = m := by
          rw [List.getLast_congr h (by simp) hfil]
          exact List.getLast_singleton m (by simp)
        rw [hstep, setAll_filter_none rest (mapSet acc m.id m) u hr, hlast, ← hm,
          mapSet_filter_self acc m.id m hn, hm]
      · have hfil : (m :: rest).filter (fun x => x.id == u)
            = m :: rest.filter (fun x => x.id == u) := by
          rw [List.filter_cons_of_pos (by simpa using hm)]
        have hlast : ((m :: rest).filter (fun x => x.id == u)).getLast h
            = (rest.filter (fun x => x.id == u)).getLast hr := by
          rw [List.getLast_congr h (by simp [hfil, hr]) hfil]
          exact List.getLast_cons hr
        rw [hstep, ih (mapSet acc m.id m) u (mapSet_nodup acc m.id m hn) hr, hlast]
    · have hfil : (m :: rest).filter (fun x => x.id == u)
          = rest.filter (fun x => x.id == u) := by
        rw [List.filter_cons_of_neg (by simpa using hm)]
      have hr : rest.filter (fun x => x.id == u) ≠ [] := by
        rw [← hfil]; exact h
      have hlast : ((m :: rest).filter (fun x => x.id == u)).getLast h
          = (rest.filter (fun x => x.id == u)).getLast hr :=
        List.getLast_congr h hr hfil
      rw [hstep, ih (mapSet acc m.id m) u (mapSet_nodup acc m.id m hn) hr, hlast]

/-- Claim C9: the team merge is keyed by member id with last-write-wins —
whenever the incoming batch supplies id `u`, the merged team holds exactly
one entry for `u`, namely the last incoming member with that id — and no
member id ever appears twice in the merged team. -/
theorem mergeTeam_last_write_wins (existing incoming : List TeamMember) (u : String)
    (h : incoming.filter (fun m => m.id == u) ≠ []) :
    (mergeTeam existing incoming).filter (fun m => m.id == u)
      = [(incoming.filter (fun m => m.id == u)).getLast h] ∧
    ((mergeTeam existing incoming).map (fun m => m.id)).Nodup := by
  have hseed_nodup : ((setAll [] existing).map Prod.fst).Nodup :=
    setAll_nodup existing [] (by simp)
  have hseed_inv : ∀ p ∈ setAll [] existing, p.1 = p.2.id :=
    setAll_inv existing [] (by simp)
  have hassoc_nodup : ((setAll (setAll [] existing) incoming).map Prod.fst).Nodup :=
    setAll_nodup incoming (setAll [] existing) hseed_nodup
  have hassoc_inv : ∀ p ∈ setAll (setAll [] existing) incoming, p.1 = p.2.id :=
    setAll_inv incoming (setAll [] existing) hseed_inv
  have hmain := setAll_filter_last incoming (setAll [] existing) u hseed_nodup h
  constructor
  · rw [mergeTeam, List.filter_map]
    have hcongr : (setAll (setAll [] existing) incoming).filter
          ((fun m => m.id == u) ∘ Prod.snd)
        = (setAll (setAll [] existing) incoming).filter (fun p => p.1 == u) := by
      apply List.filter_congr
      intro p hp
      simp [Function.comp, hassoc_inv p hp]
    rw [hcongr, hmain]
    rfl
  · rw [mergeTeam, List.map_map]
    have hcongr : (setAll (setAll [] existing) incoming).map ((fun m => m.id) ∘ Prod.snd)
        = (setAll (setAll [] existing) incoming).map Prod.fst := by
      apply List.map_congr_left
      intro p hp
      simp [Function.comp, hassoc_inv p hp]
    rw [hcongr]
    exact hassoc_nodup

/-- Witness for C9: id u1 named Alice, re-supplied as Alicia, merges to a
single entry named Alicia with no duplicate ids. -/
theorem mergeTeam_last_write_wins_witness :
    (mergeTeam [aliceM] [aliciaM]).filter (fun m => m.id == "u1") = [aliciaM] ∧
      ((mergeTeam [aliceM] [aliciaM]).map (fun m => m.id)).Nodup := by
  have h := mergeTeam_last_write_wins [aliceM] [aliciaM] ("u1") (by decide)
  refine ⟨?_, h.2⟩
  rw [h.1]
  decide
